import Mathlib

/-!
Shallow embedding of the caish-website event proxy handlers:
the Vercel function (src/api/events.js) and the Netlify function
(the unnamed Netlify source file), which share one pipeline:
select entries, build a tag catalog, keyword-filter, sort by start
time, recency-filter, and apply an optional limit.

JavaScript strings are modelled as `List Char`; JS truthiness of the
relevant values (undefined/empty string falsy, arrays always truthy,
numbers falsy at 0) is made explicit at each use site.  Date values
are modelled by `StartVal`: a parsable date string carries its epoch
milliseconds, an unparseable one is `junk` (JS `Invalid Date`, whose
comparisons are all false and which the sort comparator treats as a
tie per the ECMAScript SortCompare NaN rule).
-/

abbrev Str := List Char

/-- Tag identifiers as the upstream emits them: strings or numbers.
JS `Map` keys compare with strict equality, so the two kinds never
collide. -/
inductive TagId where
  | str (s : Str)
  | num (n : Int)
deriving DecidableEq

/-- JS truthiness of a tag identifier value: empty string and 0 are falsy. -/
def TagId.truthy : TagId → Bool
  | .str s => !s.isEmpty
  | .num n => n != 0

/-- A tag entry of the upstream payload: a plain string, an object
(with optional `name`, `api_id`, `id` properties), or any other JS
value (number, null, boolean), which has none of those properties. -/
inductive Tag where
  | str (s : Str)
  | obj (name : Option Str) (api_id : Option TagId) (id : Option TagId)
  | other
deriving DecidableEq

/-- The value found in a `start_at`/`start_time` field, seen through
`new Date`: either a (truthy) string that parses to an epoch-millisecond
instant, or a (truthy) string that does not parse.  An absent or empty
(falsy) field is modelled by `Option.none` at the field itself. -/
inductive StartVal where
  | parsable (ms : Int)
  | junk
deriving DecidableEq

/-- The event-shaped attributes a record may carry.  `none` models an
absent (or falsy, for the string-valued fields) JS property. -/
structure EventFields where
  name : Option Str := none
  description : Option Str := none
  tags : Option (List Tag) := none
  tag_ids : Option (List TagId) := none
  start_at : Option StartVal := none
  start_time : Option StartVal := none
deriving DecidableEq

/-- An upstream entry: either a wrapper holding a nested `event` object,
or a bare event (then `event = none` and `fields` are the entry's own
attributes).  `extra` stands for all fields the pipeline never reads
(e.g. `location`), so preservation of unconsumed fields is visible. -/
structure RawEntry where
  event : Option EventFields := none
  fields : EventFields := {}
  extra : List (String × String) := []
deriving DecidableEq

/-- The top level of the upstream JSON response. -/
structure UpstreamData where
  entries : Option (List RawEntry) := none
  events : Option (List RawEntry) := none
  tags : Option (List Tag) := none
  tag_list : Option (List Tag) := none
deriving DecidableEq

/-- JS `String.prototype.toUpperCase`. -/
def upperStr (s : Str) : Str := s.map Char.toUpper

/-- `leadsWith needle hay` holds when `hay` starts with `needle`. -/
def leadsWith : Str → Str → Bool
  | [], _ => true
  | _ :: _, [] => false
  | a :: as, b :: bs => a == b && leadsWith as bs

/-- JS `hay.includes(needle)`: scan every position of `hay` for `needle`. -/
def includes : Str → Str → Bool
  | [], needle => leadsWith needle []
  | c :: rest, needle => leadsWith needle (c :: rest) || includes rest needle

/-- The declarative reading of substring containment used to state the
claims: `needle` occurs contiguously inside `hay`. -/
def hasSubstr (hay needle : Str) : Prop := ∃ p q, hay = p ++ needle ++ q

/-- The organization keyword, `'CAISH'`. -/
def CAISH : Str := ['C', 'A', 'I', 'S', 'H']

/-- Value of a digit run, most significant first. -/
def digitsToNat (ds : Str) : Nat := ds.foldl (fun a c => 10 * a + (c.toNat - '0'.toNat)) 0

/-- Longest leading digit run, `none` when there is none (→ JS `NaN`). -/
def leadDigits (cs : Str) : Option Nat :=
  let ds := cs.takeWhile Char.isDigit
  if ds.isEmpty then none else some (digitsToNat ds)

/-- The whitespace JS `parseInt` skips. -/
def isJsSpace (c : Char) : Bool :=
  c == ' ' || c == '\t' || c == '\n' || c == '\r' || c == '\x0b' || c == '\x0c'

/-- JS `parseInt(s, 10)` (also `Number.parseInt`): skip whitespace, read an
optional sign then a leading digit run; `none` models `NaN`. -/
def jsParseInt (s : Str) : Option Int :=
  match s.dropWhile isJsSpace with
  | '-' :: rest => (leadDigits rest).map (fun n => -(n : Int))
  | '+' :: rest => (leadDigits rest).map (fun n => (n : Int))
  | cs => (leadDigits cs).map (fun n => (n : Int))

/-- Modelled upstream interaction for a request: the parsed JSON body on
success, the status and body text on an upstream HTTP error, or a thrown
exception (network/parse failure). -/
inductive Upstream where
  | ok (data : UpstreamData)
  | httpError (status : Nat) (text : String)
  | exn (message : String)
deriving DecidableEq

/-- The JSON bodies the handlers produce. -/
inductive Body where
  | errorMsg (error : String)
  | errorDetails (error : String) (details : String)
  | internalMsg (error : String) (message : String)
  | payload (events : List RawEntry) (count : Nat)
deriving DecidableEq

namespace Vercel

/-- `normalizeTagName` of src/api/events.js: a string tag is its own name,
an object with a string `name` yields that name, anything else `''`. -/
def normalizeTagName : Tag → Str
  | .str s => s
  | .obj name _ _ => match name with | some n => n | none => []
  | .other => []

/-- `extractTagNames`: normalize, drop empties (`filter(Boolean)`), uppercase. -/
def extractTagNames (tags : List Tag) : List Str :=
  ((tags.map normalizeTagName).filter (fun s => !s.isEmpty)).map upperStr

/-- `hasCaishtag`: some collected name contains `'CAISH'`. -/
def hasCaishtag (tagNames : List Str) : Bool :=
  tagNames.any (fun tag => includes tag CAISH)

/-- `tag?.api_id || tag?.id`: the `api_id` value when truthy, otherwise the
`id` property's value (possibly itself falsy or absent). -/
def rawIdentifier : Tag → Option TagId
  | .obj _ apiId id =>
    match apiId with
    | some i => if i.truthy then some i else id
    | none => id
  | _ => none

/-- Truthiness of the computed identifier (`undefined` is falsy). -/
def idTruthy : Option TagId → Bool
  | some i => i.truthy
  | none => false

/-- The catalog pair one tag entry contributes, if any: the body of the
`forEach` callback — `if (id && name) tagDictionary.set(id, name)`. -/
def catalogEntry (tag : Tag) : Option (TagId × Str) :=
  match rawIdentifier tag with
  | some i =>
    if i.truthy && !(normalizeTagName tag).isEmpty then
      some (i, normalizeTagName tag)
    else none
  | none => none

/-- The `tagDictionary` Map, as its insertion-ordered entry list. -/
def tagDictionary (tagList : List Tag) : List (TagId × Str) :=
  tagList.filterMap catalogEntry

/-- `Map.prototype.get` with last-set-wins semantics. -/
def dictGet (dict : List (TagId × Str)) (key : TagId) : Option Str :=
  (dict.reverse.find? (fun p => p.1 == key)).map (fun p => p.2)

/-- `data.tags || data.tag_list || []`: a present array (even empty) is
truthy, so `tag_list` is consulted only when `tags` is absent. -/
def tagList (data : UpstreamData) : List Tag :=
  match data.tags with
  | some l => l
  | none => match data.tag_list with | some l => l | none => []

/-- `data.entries || data.events || []`. -/
def initialEvents (data : UpstreamData) : List RawEntry :=
  match data.entries with
  | some l => l
  | none => match data.events with | some l => l | none => []

/-- `entry.event || entry`: objects are truthy, so the wrapper's nested
event wins whenever it is present. -/
def resolveEvent (entry : RawEntry) : EventFields :=
  match entry.event with
  | some ev => ev
  | none => entry.fields

/-- `event.tags || entry.tags || []`. -/
def entryTags (entry : RawEntry) : List Tag :=
  match (resolveEvent entry).tags with
  | some l => l
  | none => match entry.fields.tags with | some l => l | none => []

/-- `event.tag_ids || entry.tag_ids || []`. -/
def entryTagIds (entry : RawEntry) : List TagId :=
  match (resolveEvent entry).tag_ids with
  | some l => l
  | none => match entry.fields.tag_ids with | some l => l | none => []

/-- `event.name || ''`. -/
def entryName (entry : RawEntry) : Str := ((resolveEvent entry).name).getD []

/-- `event.description || ''`. -/
def entryDescription (entry : RawEntry) : Str :=
  ((resolveEvent entry).description).getD []

/-- `tagIds.map(get).filter(Boolean).map(toUpperCase)`: unresolved ids
(`undefined`) and empty names are dropped by `filter(Boolean)`. -/
def resolvedTagNames (dict : List (TagId × Str)) (ids : List TagId) : List Str :=
  ((ids.filterMap (dictGet dict)).filter (fun s => !s.isEmpty)).map upperStr

/-- `[...directTagNames, ...resolvedTagNames]`. -/
def allTagNames (dict : List (TagId × Str)) (entry : RawEntry) : List Str :=
  extractTagNames (entryTags entry) ++ resolvedTagNames dict (entryTagIds entry)

/-- The keyword-filter predicate of `events.filter`. -/
def keepEvent (dict : List (TagId × Str)) (entry : RawEntry) : Bool :=
  hasCaishtag (allTagNames dict entry) ||
    includes (upperStr (entryName entry)) CAISH ||
    includes (upperStr (entryDescription entry)) CAISH

/-- `(a.event || a).start_at || (a.event || a).start_time`: a truthy
`start_at` (parsable or not) wins; a falsy one falls through. -/
def startValue (ev : EventFields) : Option StartVal :=
  match ev.start_at with
  | some v => some v
  | none => ev.start_time

/-- The epoch milliseconds of an entry's derived start date; `none` models
`Invalid Date` (absent/unparseable start value). -/
def startMs (entry : RawEntry) : Option Int :=
  match startValue (resolveEvent entry) with
  | some (.parsable ms) => some ms
  | some .junk => none
  | none => none

/-- The sort comparator `dateA - dateB`, as "compares ≤ 0": per the
ECMAScript SortCompare rule a NaN comparator result counts as 0, so any
comparison touching an invalid date is a tie. -/
def sortLe (a b : RawEntry) : Bool :=
  match startMs a, startMs b with
  | some x, some y => decide (x ≤ y)
  | _, _ => true

def sortRel (a b : RawEntry) : Prop := sortLe a b = true

instance : DecidableRel sortRel := fun a b => inferInstanceAs (Decidable (sortLe a b = true))

/-- `events.sort(comparator)`: a stable sort by the comparator. -/
def sortEvents (events : List RawEntry) : List RawEntry :=
  List.insertionSort sortRel events

/-- `now.getTime() - 7 * 24 * 60 * 60 * 1000`. -/
def oneWeekAgo (now : Int) : Int := now - 7 * 24 * 60 * 60 * 1000

/-- `startDate >= oneWeekAgo`: false for an invalid date. -/
def keepRecent (now : Int) (entry : RawEntry) : Bool :=
  match startMs entry with
  | some t => decide (oneWeekAgo now ≤ t)
  | none => false

/-- The recency `events.filter`. -/
def recentEvents (now : Int) (events : List RawEntry) : List RawEntry :=
  events.filter (keepRecent now)

/-- `limit = req.query.limit ? parseInt(req.query.limit, 10) : null;
if (limit && limit > 0) events = events.slice(0, limit)`. -/
def applyLimit (limitParam : Option Str) (events : List RawEntry) : List RawEntry :=
  match limitParam with
  | none => events
  | some s =>
    if s.isEmpty then events
    else
      match jsParseInt s with
      | none => events
      | some n => if 0 < n then events.take n.toNat else events

/-- The pipeline up to (not including) the limit stage. -/
def preLimit (data : UpstreamData) (now : Int) : List RawEntry :=
  let dict := tagDictionary (tagList data)
  recentEvents now (sortEvents ((initialEvents data).filter (keepEvent dict)))

/-- The whole event pipeline of the handler's success path. -/
def pipeline (data : UpstreamData) (now : Int) (limitParam : Option Str) : List RawEntry :=
  applyLimit limitParam (preLimit data now)

/-- A Vercel request, reduced to what the handler reads. -/
structure Request where
  method : String
  limit : Option Str := none
deriving DecidableEq

/-- The handler: result is `((status, body), upstreamCalled)`. -/
def handler (apiKey : Option String) (req : Request) (upstream : Upstream) (now : Int) :
    (Nat × Body) × Bool :=
  if req.method ≠ "GET" then ((405, .errorMsg "Method not allowed"), false)
  else if apiKey = none ∨ apiKey = some "" then
    ((500, .errorMsg "API configuration error"), false)
  else
    match upstream with
    | .httpError status text =>
      ((status, .errorDetails "Failed to fetch events from Luma" text), true)
    | .exn message => ((500, .internalMsg "Internal server error" message), true)
    | .ok data =>
      let events := pipeline data now req.limit
      ((200, .payload events events.length), true)

end Vercel

namespace Netlify

/-- `const CAISH_TAG = 'CAISH'` of the Netlify source. -/
def CAISH_TAG : Str := ['C', 'A', 'I', 'S', 'H']

/-- `normalizeTagName` of the Netlify source. -/
def normalizeTagName : Tag → Str
  | .str s => s
  | .obj name _ _ => match name with | some n => n | none => []
  | .other => []

/-- `extractTagNames` of the Netlify source. -/
def extractTagNames (tags : List Tag) : List Str :=
  ((tags.map normalizeTagName).filter (fun s => !s.isEmpty)).map upperStr

/-- `hasCaishtag` of the Netlify source, against `CAISH_TAG`. -/
def hasCaishtag (tagNames : List Str) : Bool :=
  tagNames.any (fun tag => includes tag CAISH_TAG)

/-- `tag?.api_id || tag?.id` in the Netlify `forEach`. -/
def rawIdentifier : Tag → Option TagId
  | .obj _ apiId id =>
    match apiId with
    | some i => if i.truthy then some i else id
    | none => id
  | _ => none

/-- The catalog pair one tag entry contributes (`if (id && name) set`). -/
def catalogEntry (tag : Tag) : Option (TagId × Str) :=
  match rawIdentifier tag with
  | some i =>
    if i.truthy && !(normalizeTagName tag).isEmpty then
      some (i, normalizeTagName tag)
    else none
  | none => none

/-- The Netlify `tagDictionary` Map, as its insertion-ordered entries. -/
def tagDictionary (tagList : List Tag) : List (TagId × Str) :=
  tagList.filterMap catalogEntry

/-- `Map.prototype.get`, last-set-wins. -/
def dictGet (dict : List (TagId × Str)) (key : TagId) : Option Str :=
  (dict.reverse.find? (fun p => p.1 == key)).map (fun p => p.2)

/-- `data.tags || data.tag_list || []`. -/
def tagList (data : UpstreamData) : List Tag :=
  match data.tags with
  | some l => l
  | none => match data.tag_list with | some l => l | none => []

/-- `data.entries || data.events || []`. -/
def initialEvents (data : UpstreamData) : List RawEntry :=
  match data.entries with
  | some l => l
  | none => match data.events with | some l => l | none => []

/-- `entry.event || entry` (named `eventData` in this source). -/
def resolveEvent (entry : RawEntry) : EventFields :=
  match entry.event with
  | some ev => ev
  | none => entry.fields

/-- `eventData.tags || entry.tags || []`. -/
def entryTags (entry : RawEntry) : List Tag :=
  match (resolveEvent entry).tags with
  | some l => l
  | none => match entry.fields.tags with | some l => l | none => []

/-- `eventData.tag_ids || entry.tag_ids || []`. -/
def entryTagIds (entry : RawEntry) : List TagId :=
  match (resolveEvent entry).tag_ids with
  | some l => l
  | none => match entry.fields.tag_ids with | some l => l | none => []

/-- `eventData.name || ''`. -/
def entryName (entry : RawEntry) : Str := ((resolveEvent entry).name).getD []

/-- `eventData.description || ''`. -/
def entryDescription (entry : RawEntry) : Str :=
  ((resolveEvent entry).description).getD []

/-- `tagIds.map(get).filter(Boolean).map(toUpperCase)`. -/
def resolvedTagNames (dict : List (TagId × Str)) (ids : List TagId) : List Str :=
  ((ids.filterMap (dictGet dict)).filter (fun s => !s.isEmpty)).map upperStr

/-- `[...directTagNames, ...resolvedTagNames]`. -/
def allTagNames (dict : List (TagId × Str)) (entry : RawEntry) : List Str :=
  extractTagNames (entryTags entry) ++ resolvedTagNames dict (entryTagIds entry)

/-- The keyword-filter predicate of the Netlify `events.filter`. -/
def keepEvent (dict : List (TagId × Str)) (entry : RawEntry) : Bool :=
  hasCaishtag (allTagNames dict entry) ||
    includes (upperStr (entryName entry)) CAISH_TAG ||
    includes (upperStr (entryDescription entry)) CAISH_TAG

/-- `(a.event || a).start_at || (a.event || a).start_time`. -/
def startValue (ev : EventFields) : Option StartVal :=
  match ev.start_at with
  | some v => some v
  | none => ev.start_time

/-- Epoch milliseconds of the derived start date; `none` is `Invalid Date`. -/
def startMs (entry : RawEntry) : Option Int :=
  match startValue (resolveEvent entry) with
  | some (.parsable ms) => some ms
  | some .junk => none
  | none => none

/-- The Netlify sort comparator, as "compares ≤ 0". -/
def sortLe (a b : RawEntry) : Bool :=
  match startMs a, startMs b with
  | some x, some y => decide (x ≤ y)
  | _, _ => true

def sortRel (a b : RawEntry) : Prop := sortLe a b = true

instance : DecidableRel sortRel := fun a b => inferInstanceAs (Decidable (sortLe a b = true))

/-- `events.sort(comparator)`. -/
def sortEvents (events : List RawEntry) : List RawEntry :=
  List.insertionSort sortRel events

/-- `now.getTime() - 7 * 24 * 60 * 60 * 1000`. -/
def oneWeekAgo (now : Int) : Int := now - 7 * 24 * 60 * 60 * 1000

/-- `startDate >= oneWeekAgo`. -/
def keepRecent (now : Int) (entry : RawEntry) : Bool :=
  match startMs entry with
  | some t => decide (oneWeekAgo now ≤ t)
  | none => false

/-- The recency `events.filter`. -/
def recentEvents (now : Int) (events : List RawEntry) : List RawEntry :=
  events.filter (keepRecent now)

/-- `limit = qsp?.limit ? Number.parseInt(qsp.limit, 10) : null; if (limit
&& limit > 0) slice(0, limit)`. -/
def applyLimit (limitParam : Option Str) (events : List RawEntry) : List RawEntry :=
  match limitParam with
  | none => events
  | some s =>
    if s.isEmpty then events
    else
      match jsParseInt s with
      | none => events
      | some n => if 0 < n then events.take n.toNat else events

/-- The Netlify pipeline up to (not including) the limit stage. -/
def preLimit (data : UpstreamData) (now : Int) : List RawEntry :=
  let dict := tagDictionary (tagList data)
  recentEvents now (sortEvents ((initialEvents data).filter (keepEvent dict)))

/-- The whole Netlify success-path pipeline. -/
def pipeline (data : UpstreamData) (now : Int) (limitParam : Option Str) : List RawEntry :=
  applyLimit limitParam (preLimit data now)

/-- `event.queryStringParameters`, reduced to what the handler reads. -/
structure Query where
  limit : Option Str := none
deriving DecidableEq

/-- A Netlify invocation event, reduced to what the handler reads. -/
structure Event where
  httpMethod : String
  queryStringParameters : Option Query := none
deriving DecidableEq

/-- `event.queryStringParameters?.limit`. -/
def limitParamOf (e : Event) : Option Str :=
  match e.queryStringParameters with
  | none => none
  | some q => q.limit

/-- The Netlify handler: result is `((statusCode, body), upstreamCalled)`. -/
def handler (apiKey : Option String) (e : Event) (upstream : Upstream) (now : Int) :
    (Nat × Body) × Bool :=
  if e.httpMethod ≠ "GET" then ((405, .errorMsg "Method not allowed"), false)
  else if apiKey = none ∨ apiKey = some "" then
    ((500, .errorMsg "API configuration error"), false)
  else
    match upstream with
    | .httpError status text =>
      ((status, .errorDetails "Failed to fetch events from Luma" text), true)
    | .exn message => ((500, .internalMsg "Internal server error" message), true)
    | .ok data =>
      let events := pipeline data now (limitParamOf e)
      ((200, .payload events events.length), true)

end Netlify

/-! ### Helper lemmas -/

theorem leadsWith_iff (needle hay : Str) :
    leadsWith needle hay = true ↔ ∃ t, hay = needle ++ t := by
  induction needle generalizing hay with
  | nil => simp [leadsWith]
  | cons a as ih =>
    cases hay with
    | nil => simp [leadsWith]
    | cons b bs =>
      simp only [leadsWith, Bool.and_eq_true, beq_iff_eq, ih, List.cons_append,
        List.cons.injEq]
      constructor
      · rintro ⟨rfl, t, rfl⟩
        exact ⟨t, rfl, rfl⟩
      · rintro ⟨t, rfl, rfl⟩
        exact ⟨rfl, t, rfl⟩

theorem includes_iff (hay needle : Str) :
    includes hay needle = true ↔ hasSubstr hay needle := by
  induction hay with
  | nil =>
    simp only [includes, leadsWith_iff, hasSubstr]
    constructor
    · rintro ⟨t, ht⟩
      exact ⟨[], t, by simpa using ht⟩
    · rintro ⟨p, q, hpq⟩
      refine ⟨q, ?_⟩
      rcases List.append_eq_nil.mp ((List.append_assoc p needle q ▸ hpq).symm) with ⟨hp, hnq⟩
      rcases List.append_eq_nil.mp hnq with ⟨hn, hq⟩
      simp [hp, hn, hq]
  | cons c rest ih =>
    simp only [includes, Bool.or_eq_true, leadsWith_iff, ih, hasSubstr]
    constructor
    · rintro (⟨t, ht⟩ | ⟨p, q, hpq⟩)
      · exact ⟨[], t, by simpa using ht⟩
      · exact ⟨c :: p, q, by simp [hpq]⟩
    · rintro ⟨p, q, hpq⟩
      cases p with
      | nil => exact Or.inl ⟨q, by simpa using hpq⟩
      | cons d p' =>
        rcases List.cons.injEq .. ▸ hpq with ⟨rfl, hrest⟩
        exact Or.inr ⟨p', q, hrest⟩

theorem upperStr_CAISH : upperStr CAISH = CAISH := by decide

theorem mem_applyLimit {q : Option Str} {l : List RawEntry} {e : RawEntry}
    (h : e ∈ Vercel.applyLimit q l) : e ∈ l := by
  unfold Vercel.applyLimit at h
  rcases q with _ | s
  · exact h
  · by_cases hs : s.isEmpty <;> simp only [hs, if_true, if_false] at h
    · exact h
    · rcases hp : jsParseInt s with _ | n <;> rw [hp] at h
      · exact h
      · by_cases hn : 0 < n <;> simp only [hn, if_true, if_false] at h
        · exact List.take_subset _ _ h
        · exact h

theorem mem_sortEvents {l : List RawEntry} {e : RawEntry} :
    e ∈ Vercel.sortEvents l ↔ e ∈ l :=
  (List.perm_insertionSort Vercel.sortRel l).mem_iff

theorem mem_recentEvents {now : Int} {l : List RawEntry} {e : RawEntry} :
    e ∈ Vercel.recentEvents now l ↔ e ∈ l ∧ Vercel.keepRecent now e = true :=
  List.mem_filter

/-! ### Claim theorems -/

/-- C1: the keyword filter keeps an entry iff some collected tag name
(the union of normalized, empties-dropped, uppercased inline tag names
and of catalog-resolved, unresolved-dropped, uppercased `tag_ids` names)
contains `'CAISH'` as a substring, or the event's name contains the
keyword case-insensitively, or its description does; missing
name/description/tags/tag_ids are read as empty values, so the predicate
is total and never errors. -/
theorem c1_keyword_filter (dict : List (TagId × Str)) (entry : RawEntry) :
    (Vercel.keepEvent dict entry = true ↔
      ((∃ n ∈ Vercel.allTagNames dict entry, hasSubstr n CAISH) ∨
        hasSubstr (upperStr (Vercel.entryName entry)) (upperStr CAISH) ∨
        hasSubstr (upperStr (Vercel.entryDescription entry)) (upperStr CAISH))) ∧
    ((Vercel.resolveEvent entry).name = none → Vercel.entryName entry = []) ∧
    ((Vercel.resolveEvent entry).description = none →
      Vercel.entryDescription entry = []) ∧
    ((Vercel.resolveEvent entry).tags = none → entry.fields.tags = none →
      Vercel.entryTags entry = []) ∧
    ((Vercel.resolveEvent entry).tag_ids = none → entry.fields.tag_ids = none →
      Vercel.entryTagIds entry = []) := by
  refine ⟨?_, ?_, ?_, ?_, ?_⟩
  · simp [Vercel.keepEvent, Vercel.hasCaishtag, List.any_eq_true, includes_iff,
      upperStr_CAISH, or_assoc]
  · intro h
    simp [Vercel.entryName, h]
  · intro h
    simp [Vercel.entryDescription, h]
  · intro h1 h2
    unfold Vercel.entryTags
    rw [h1, h2]
  · intro h1 h2
    unfold Vercel.entryTagIds
    rw [h1, h2]

/-- C1 witness: on the empty entry every derived field is empty and the
filter's characterization applies. -/
theorem c1_keyword_filter_witness :
    Vercel.entryName {} = [] ∧ Vercel.entryTags {} = [] ∧
      Vercel.entryTagIds {} = [] :=
  ⟨(c1_keyword_filter [] {}).2.1 rfl,
   (c1_keyword_filter [] {}).2.2.2.1 rfl rfl,
   (c1_keyword_filter [] {}).2.2.2.2 rfl rfl⟩

def c2tag : Tag := .obj (some CAISH) (some (.num 1)) none

def c2data : UpstreamData := { tags := some [], tag_list := some [c2tag] }

/-- C2 counterexample: with `tags` present but an empty list and a
non-empty `tag_list`, the code builds the catalog from the empty `tags`
(a present array is truthy in JS), not from `tag_list` as the claim
states: the resulting catalog is empty while the catalog the claim
predicts contains the `tag_list` entry. -/
theorem c2_counterexample :
    c2data.tags = some [] ∧ c2data.tag_list = some [c2tag] ∧
      Vercel.tagList c2data = [] ∧
      Vercel.tagDictionary (Vercel.tagList c2data) = [] ∧
      Vercel.tagDictionary [c2tag] = [(.num 1, CAISH)] ∧
      Vercel.tagDictionary (Vercel.tagList c2data) ≠ Vercel.tagDictionary [c2tag] := by
  refine ⟨rfl, rfl, rfl, rfl, by decide, by decide⟩

/-- C2 amended: the TagCatalog is built from the first *present* of the
top-level `tags` and `tag_list` fields — a present `tags` wins even when
empty; `tag_list` is used only when `tags` is absent or undefined; when
both are absent the catalog source is the empty list. -/
theorem c2_amended (data : UpstreamData) :
    (∀ l, data.tags = some l → Vercel.tagList data = l) ∧
    (data.tags = none → ∀ l, data.tag_list = some l → Vercel.tagList data = l) ∧
    (data.tags = none → data.tag_list = none → Vercel.tagList data = []) := by
  refine ⟨?_, ?_, ?_⟩
  · intro l h
    simp [Vercel.tagList, h]
  · intro h l h2
    simp [Vercel.tagList, h, h2]
  · intro h h2
    simp [Vercel.tagList, h, h2]

/-- C2 amended witness: absent `tags` falls back to `tag_list`. -/
theorem c2_amended_witness :
    Vercel.tagList { tags := none, tag_list := some [c2tag] } = [c2tag] :=
  (c2_amended _).2.1 rfl [c2tag] rfl

/-- C3: a top-level tag entry is inserted into the catalog exactly when
its computed identifier (`api_id` when truthy, else `id`; string or
number) is usable (truthy) and its normalized display name is non-empty;
the inserted pair stores the name in its original case, and every other
entry is skipped with no effect on the rest of the catalog (the build is
a total function: no error, no log). -/
theorem c3_tag_resolver (pre post : List Tag) (tag : Tag) :
    ((Vercel.idTruthy (Vercel.rawIdentifier tag) = false ∨
        Vercel.normalizeTagName tag = []) →
      Vercel.tagDictionary (pre ++ tag :: post) = Vercel.tagDictionary (pre ++ post)) ∧
    (∀ i, Vercel.rawIdentifier tag = some i → i.truthy = true →
      Vercel.normalizeTagName tag ≠ [] →
      Vercel.tagDictionary (pre ++ tag :: post) =
        Vercel.tagDictionary pre ++ (i, Vercel.normalizeTagName tag) ::
          Vercel.tagDictionary post) := by
  constructor
  · intro h
    have hce : Vercel.catalogEntry tag = none := by
      unfold Vercel.catalogEntry
      rcases hid : Vercel.rawIdentifier tag with _ | i
      · rfl
      · rcases h with h | h
        · rw [hid] at h
          simp only [Vercel.idTruthy] at h
          simp [h]
        · simp [h]
    simp [Vercel.tagDictionary, List.filterMap_append, List.filterMap_cons, hce]
  · intro i hi ht hname
    have hce : Vercel.catalogEntry tag = some (i, Vercel.normalizeTagName tag) := by
      unfold Vercel.catalogEntry
      rw [hi]
      have hne : (Vercel.normalizeTagName tag).isEmpty = false := by
        cases hn : Vercel.normalizeTagName tag with
        | nil => exact absurd hn hname
        | cons a as => rfl
      simp [ht, hne]
    simp [Vercel.tagDictionary, List.filterMap_append, List.filterMap_cons, hce]

def c3tag : Tag := .obj (some ['S', 'o', 'c', 'i', 'a', 'l', 's']) (some (.num 7)) none

/-- C3 witness: a tag with numeric `api_id` 7 and name `"Socials"` is
inserted with its original-case name. -/
theorem c3_tag_resolver_witness :
    Vercel.tagDictionary ([] ++ c3tag :: []) =
      Vercel.tagDictionary [] ++
        (TagId.num 7, ['S', 'o', 'c', 'i', 'a', 'l', 's']) :: Vercel.tagDictionary [] :=
  (c3_tag_resolver [] [] c3tag).2 (.num 7) rfl rfl (by decide)

/-- C4: the kept entries are sorted ascending by the start timestamp
derived as `start_at`-else-`start_time` on the resolved event shape: for
three kept events with timestamps T2 < T1 < T3 in any input order the
output is T2, T1, T3, and the sort always returns a permutation of its
input. -/
theorem c4_sort_order (a b c : RawEntry) (t1 t2 t3 : Int) (l : List RawEntry)
    (ha : Vercel.startMs a = some t1) (hb : Vercel.startMs b = some t2)
    (hc : Vercel.startMs c = some t3) (h21 : t2 < t1) (h13 : t1 < t3)
    (hl : l = [a, b, c] ∨ l = [a, c, b] ∨ l = [b, a, c] ∨ l = [b, c, a] ∨
      l = [c, a, b] ∨ l = [c, b, a]) :
    Vercel.sortEvents l = [b, a, c] ∧
      ∀ m : List RawEntry, (Vercel.sortEvents m).Perm m := by
  have hab : ¬ Vercel.sortRel a b := by
    simp only [Vercel.sortRel, Vercel.sortLe, ha, hb, decide_eq_true_eq]
    omega
  have hba : Vercel.sortRel b a := by
    simp only [Vercel.sortRel, Vercel.sortLe, ha, hb, decide_eq_true_eq]
    omega
  have hac : Vercel.sortRel a c := by
    simp only [Vercel.sortRel, Vercel.sortLe, ha, hc, decide_eq_true_eq]
    omega
  have hca : ¬ Vercel.sortRel c a := by
    simp only [Vercel.sortRel, Vercel.sortLe, ha, hc, decide_eq_true_eq]
    omega
  have hbc : Vercel.sortRel b c := by
    simp only [Vercel.sortRel, Vercel.sortLe, hb, hc, decide_eq_true_eq]
    omega
  have hcb : ¬ Vercel.sortRel c b := by
    simp only [Vercel.sortRel, Vercel.sortLe, hb, hc, decide_eq_true_eq]
    omega
  refine ⟨?_, fun m => List.perm_insertionSort Vercel.sortRel m⟩
  rcases hl with rfl | rfl | rfl | rfl | rfl | rfl <;>
    simp [Vercel.sortEvents, List.insertionSort, List.orderedInsert,
      hab, hba, hac, hca, hbc, hcb]

def c4a : RawEntry := { fields := { start_at := some (.parsable 200) } }

def c4b : RawEntry := { fields := { start_at := some (.parsable 100) } }

def c4c : RawEntry := { fields := { start_at := some (.parsable 300) } }

/-- C4 witness: timestamps 100 < 200 < 300 submitted as [300, 200, 100]
come out as [100, 200, 300]. -/
theorem c4_sort_order_witness :
    Vercel.sortEvents [c4c, c4a, c4b] = [c4b, c4a, c4c] ∧
      ∀ m : List RawEntry, (Vercel.sortEvents m).Perm m :=
  c4_sort_order c4a c4b c4c 200 100 300 [c4c, c4a, c4b] rfl rfl rfl (by decide)
    (by decide) (Or.inr (Or.inr (Or.inr (Or.inr (Or.inl rfl)))))

/-- C5: with the request's single cutoff `now - 7 days`, the recency
filter keeps an event carrying a derived start timestamp exactly when
that timestamp is not earlier than the cutoff; in particular a start 6
days before now is kept and a start 8 days before now is dropped. -/
theorem c5_recency_filter (now : Int) (l : List RawEntry) (e : RawEntry) (t : Int)
    (ht : Vercel.startMs e = some t) :
    (e ∈ Vercel.recentEvents now l ↔ e ∈ l ∧ ¬ t < Vercel.oneWeekAgo now) ∧
    (t = now - 6 * 24 * 60 * 60 * 1000 → e ∈ l → e ∈ Vercel.recentEvents now l) ∧
    (t = now - 8 * 24 * 60 * 60 * 1000 → e ∉ Vercel.recentEvents now l) := by
  have hk : Vercel.keepRecent now e = decide (Vercel.oneWeekAgo now ≤ t) := by
    simp [Vercel.keepRecent, ht]
  refine ⟨?_, ?_, ?_⟩
  · rw [mem_recentEvents, hk]
    simp [decide_eq_true_eq, Int.not_lt]
  · intro h6 hmem
    rw [mem_recentEvents, hk]
    refine ⟨hmem, ?_⟩
    simp only [Vercel.oneWeekAgo, decide_eq_true_eq]
    omega
  · intro h8 hmem
    rw [mem_recentEvents, hk] at hmem
    have h2 := hmem.2
    simp only [Vercel.oneWeekAgo, decide_eq_true_eq] at h2
    omega

def c5e : RawEntry := { fields := { start_at := some (.parsable (-518400000)) } }

/-- C5 witness: with now = 0, an event starting exactly 6 days earlier
(epoch -518400000 ms) survives the recency filter. -/
theorem c5_recency_filter_witness : c5e ∈ Vercel.recentEvents 0 [c5e] :=
  (c5_recency_filter 0 [c5e] c5e (-518400000) rfl).2.1 (by decide) (by decide)

/-- C6: a limit query value parsing to a positive integer n truncates the
sorted, recency-filtered list to its first n elements; a non-positive
parse, a failed parse (e.g. "abc"), and an absent parameter leave the
list untouched. -/
theorem c6_limit (data : UpstreamData) (now : Int) :
    (∀ s n, jsParseInt s = some n → 0 < n →
      Vercel.pipeline data now (some s) = (Vercel.preLimit data now).take n.toNat) ∧
    (∀ s n, jsParseInt s = some n → n ≤ 0 →
      Vercel.pipeline data now (some s) = Vercel.preLimit data now) ∧
    (∀ s, jsParseInt s = none →
      Vercel.pipeline data now (some s) = Vercel.preLimit data now) ∧
    Vercel.pipeline data now none = Vercel.preLimit data now ∧
    Vercel.pipeline data now (some ['a', 'b', 'c']) = Vercel.preLimit data now ∧
    Vercel.pipeline data now (some ['0']) = Vercel.preLimit data now ∧
    Vercel.pipeline data now (some ['-', '1']) = Vercel.preLimit data now := by
  have key : ∀ s n, jsParseInt s = some n →
      Vercel.applyLimit (some s) (Vercel.preLimit data now) =
        if 0 < n then (Vercel.preLimit data now).take n.toNat
        else Vercel.preLimit data now := by
    intro s n hp
    simp only [Vercel.applyLimit]
    by_cases hs : s.isEmpty = true
    · exfalso
      cases s with
      | nil => exact Option.noConfusion hp
      | cons a as => simp [List.isEmpty] at hs
    · simp only [if_neg hs, hp]
  have hpos : ∀ s n, jsParseInt s = some n → 0 < n →
      Vercel.pipeline data now (some s) = (Vercel.preLimit data now).take n.toNat := by
    intro s n hp h
    unfold Vercel.pipeline
    rw [key s n hp, if_pos h]
  have hnonpos : ∀ s n, jsParseInt s = some n → n ≤ 0 →
      Vercel.pipeline data now (some s) = Vercel.preLimit data now := by
    intro s n hp h
    unfold Vercel.pipeline
    rw [key s n hp, if_neg (by omega)]
  have hnan : ∀ s, jsParseInt s = none →
      Vercel.pipeline data now (some s) = Vercel.preLimit data now := by
    intro s hp
    unfold Vercel.pipeline
    simp only [Vercel.applyLimit]
    by_cases hs : s.isEmpty = true
    · simp [hs]
    · simp [hs, hp]
  exact ⟨hpos, hnonpos, hnan, rfl, hnan _ rfl, hnonpos _ 0 rfl (by omega),
    hnonpos _ (-1) rfl (by omega)⟩

/-- C6 witness: limit "2" truncates to the first two elements. -/
theorem c6_limit_witness :
    Vercel.pipeline {} 0 (some ['2']) = (Vercel.preLimit {} 0).take 2 :=
  (c6_limit {} 0).1 ['2'] 2 rfl (by omega)

/-- C7: filtering, sorting and limiting only select among the original
entry objects: every element of the output list is (object-identically)
one of the upstream entries, so every field the pipeline does not
consume — modelled by `extra`, e.g. a `location` field — is present
unchanged in the output. -/
theorem c7_frame_preservation (data : UpstreamData) (now : Int) (q : Option Str)
    (e : RawEntry) (he : e ∈ Vercel.pipeline data now q) :
    e ∈ Vercel.initialEvents data := by
  unfold Vercel.pipeline at he
  have h1 := mem_applyLimit he
  simp only [Vercel.preLimit] at h1
  have h2 := (mem_recentEvents.mp h1).1
  have h3 := mem_sortEvents.mp h2
  exact (List.mem_filter.mp h3).1

def c7entry : RawEntry :=
  { fields := { name := some CAISH, start_at := some (.parsable 0) },
    extra := [("location", "HQ")] }

def c7data : UpstreamData := { entries := some [c7entry] }

/-- C7 witness: an entry carrying an unconsumed `location` field that
survives the whole pipeline is one of the original upstream entries. -/
theorem c7_frame_preservation_witness : c7entry ∈ Vercel.initialEvents c7data :=
  c7_frame_preservation c7data 0 none c7entry (by decide)

/-- C8: any non-GET request yields HTTP 405 with body
`{error: "Method not allowed"}` and the upstream is never contacted
(the flag in the result records whether the upstream call was made). -/
theorem c8_method_gate (apiKey : Option String) (req : Vercel.Request)
    (upstream : Upstream) (now : Int) (h : req.method ≠ "GET") :
    Vercel.handler apiKey req upstream now =
      ((405, Body.errorMsg "Method not allowed"), false) := by
  unfold Vercel.handler
  rw [if_pos h]

/-- C8 witness: a POST request is rejected with 405 and no upstream call. -/
theorem c8_method_gate_witness :
    Vercel.handler (some "key") { method := "POST" } (.ok {}) 0 =
      ((405, Body.errorMsg "Method not allowed"), false) :=
  c8_method_gate (some "key") { method := "POST" } (.ok {}) 0 (by decide)

/-- C9: the Vercel and Netlify handlers run the same core pipeline: on
the same upstream payload, the same current time and the same limit
parameter they produce the identical event list and the identical count. -/
theorem c9_pipeline_equiv (data : UpstreamData) (now : Int) (q : Option Str) :
    Netlify.pipeline data now q = Vercel.pipeline data now q ∧
      (Netlify.pipeline data now q).length = (Vercel.pipeline data now q).length :=
  ⟨rfl, rfl⟩

theorem not_mem_pipeline_of_no_start {e : RawEntry} (he : Vercel.startMs e = none)
    (d : UpstreamData) (now : Int) (q : Option Str) : e ∉ Vercel.pipeline d now q := by
  intro hmem
  unfold Vercel.pipeline at hmem
  have h1 := mem_applyLimit hmem
  simp only [Vercel.preLimit] at h1
  have h2 := (mem_recentEvents.mp h1).2
  simp [Vercel.keepRecent, he] at h2

/-- C10: an entry whose resolved event shape has no parsable start
(neither `start_at` nor `start_time`, or an unparseable value — i.e. its
derived start date is invalid) fails the recency comparison, so it never
appears in the events of a 200 response. -/
theorem c10_invalid_start_dropped (apiKey : Option String) (req : Vercel.Request)
    (upstream : Upstream) (now : Int) (e : RawEntry)
    (events : List RawEntry) (count : Nat) (called : Bool)
    (he : Vercel.startMs e = none)
    (hr : Vercel.handler apiKey req upstream now =
      ((200, Body.payload events count), called)) :
    e ∉ events := by
  unfold Vercel.handler at hr
  split_ifs at hr with h1 h2
  · simp at hr
  · simp at hr
  · cases upstream with
    | ok d =>
      simp only [Prod.mk.injEq, Body.payload.injEq] at hr
      obtain ⟨⟨-, hev, -⟩, -⟩ := hr
      rw [← hev]
      exact not_mem_pipeline_of_no_start he d now req.limit
    | httpError status text => simp at hr
    | exn message => simp at hr

def c10bad : RawEntry := { fields := { name := some CAISH } }

def c10good : RawEntry := { fields := { name := some CAISH, start_at := some (.parsable 0) } }

def c10data : UpstreamData := { entries := some [c10good, c10bad] }

/-- C10 witness: a keyword-matching entry with no start fields is absent
from the events of a concrete 200 response that still contains the
well-dated entry. -/
theorem c10_invalid_start_dropped_witness : c10bad ∉ [c10good] :=
  c10_invalid_start_dropped (some "key") { method := "GET" } (.ok c10data) 0 c10bad
    [c10good] 1 true rfl (by decide)
